import Mathlib

/-!
Verification of the LINE sticker sheet processor (`app.py`).

The pure geometry and arithmetic of the pipeline is embedded shallowly:
images are width/height plus a pixel function, Python float arithmetic on
the scale factor is modelled in exact rational arithmetic, Python `int()`
truncation is `pyInt`, and Python floor division `//` is `Int.fdiv`
(equal to `Nat` division on the non-negative operands that occur here).
External imaging oracles (rembg background removal, cv2 blur / threshold /
dilation / contour extraction, PIL LANCZOS resampling) are represented by
their outputs: functions take the oracle's result as an argument, or a
resampling function as a parameter.
-/

/-- An RGBA pixel, one natural number per 8-bit channel. -/
structure Pix where
  r : ℕ
  g : ℕ
  b : ℕ
  a : ℕ
deriving DecidableEq

/-- The fully transparent pixel `(0, 0, 0, 0)`. -/
def transparentPix : Pix := ⟨0, 0, 0, 0⟩

/-- An image: dimensions plus pixel contents (`PIL.Image`). -/
structure Image where
  width : ℕ
  height : ℕ
  pixel : ℕ → ℕ → Pix

/-- Model of `Image.new(mode, (w, h), color)`: a constant-colored image. -/
def Image.new (w h : ℕ) (c : Pix) : Image :=
  ⟨w, h, fun _ _ => c⟩

/-- Model of `image.crop((x1, y1, x2, y2))`: the sub-image of size
`(x2 - x1) × (y2 - y1)` whose pixel `(i, j)` is the source pixel
`(x1 + i, y1 + j)`. -/
def Image.crop (img : Image) (x1 y1 x2 y2 : ℕ) : Image :=
  ⟨x2 - x1, y2 - y1, fun i j => img.pixel (x1 + i) (y1 + j)⟩

/-- Python `int()` on a rational: truncation toward zero. -/
def pyInt (q : ℚ) : ℤ :=
  if 0 ≤ q then ⌊q⌋ else -⌊-q⌋

/-- Embedding of `grid_split` (app.py lines 39-66): integer-divide the image dimensions
by `cols` / `rows` and crop the `cols*rows` cells in row-major order. -/
def grid_split (image : Image) (cols rows : ℕ) : List Image :=
  let cellWidth := image.width / cols
  let cellHeight := image.height / rows
  (List.range rows).flatMap fun row =>
    (List.range cols).map fun col =>
      image.crop (col * cellWidth) (row * cellHeight)
        (col * cellWidth + cellWidth) (row * cellHeight + cellHeight)

/-- Length of a row-major double loop. -/
theorem flatMap_range_map_length {α : Type} (f : ℕ → ℕ → α) (rows cols : ℕ) :
    ((List.range rows).flatMap fun i => (List.range cols).map (f i)).length
      = rows * cols := by
  induction rows with
  | zero => simp
  | succ n ih =>
    rw [List.range_succ, List.flatMap_append]
    simp only [List.length_append, ih]
    simp [Nat.succ_mul]

/-- Element `r * cols + c` of a row-major double loop is `f r c`. -/
theorem flatMap_range_map_get {α : Type} (f : ℕ → ℕ → α) (rows cols r c : ℕ)
    (hr : r < rows) (hc : c < cols) :
    ((List.range rows).flatMap fun i => (List.range cols).map (f i))[r * cols + c]?
      = some (f r c) := by
  induction rows with
  | zero => omega
  | succ n ih =>
    rw [List.range_succ, List.flatMap_append]
    rw [List.getElem?_append]
    rw [flatMap_range_map_length]
    by_cases hrn : r < n
    · have : r * cols + c < n * cols := by
        calc r * cols + c < r * cols + cols := by omega
          _ = (r + 1) * cols := by ring
          _ ≤ n * cols := Nat.mul_le_mul_right cols (by omega)
      rw [if_pos this]
      exact ih hrn
    · have hrn2 : r = n := by omega
      subst hrn2
      rw [if_neg (by omega)]
      have hsub : r * cols + c - r * cols = c := by omega
      rw [hsub]
      simp [List.getElem?_range hc]

/-- LINE sticker canvas constants (app.py lines 24-32). -/
def LINE_STICKER_MAX_WIDTH : ℕ := 370

/-- Maximum sticker canvas height. -/
def LINE_STICKER_MAX_HEIGHT : ℕ := 320

/-- Transparent margin around each sticker. -/
def STICKER_MARGIN : ℕ := 10

/-- Main image width. -/
def LINE_MAIN_WIDTH : ℕ := 240

/-- Main image height. -/
def LINE_MAIN_HEIGHT : ℕ := 240

/-- Tab image width. -/
def LINE_TAB_WIDTH : ℕ := 96

/-- Tab image height. -/
def LINE_TAB_HEIGHT : ℕ := 74

/-- A resampling filter: given the source image and the target dimensions,
produces the pixel at `(i, j)` of the resized image. This abstracts PIL's
LANCZOS kernel, whose floating-point pixel values are not modelled; every
theorem below holds for an arbitrary filter. -/
def Resample : Type := Image → ℕ → ℕ → ℕ → ℕ → Pix

/-- Model of `image.resize((w, h), LANCZOS)`: an image of exactly the requested
dimensions whose content is produced by the resampling filter. -/
def Image.resizeWith (img : Image) (w h : ℕ) (resample : Resample) : Image :=
  ⟨w, h, fun i j => resample img w h i j⟩

/-- Per-channel alpha blend used by PIL when pasting with an RGBA mask. -/
def blendPix (bg fg : Pix) : Pix :=
  ⟨(bg.r * (255 - fg.a) + fg.r * fg.a) / 255,
   (bg.g * (255 - fg.a) + fg.g * fg.a) / 255,
   (bg.b * (255 - fg.a) + fg.b * fg.a) / 255,
   (bg.a * (255 - fg.a) + fg.a * fg.a) / 255⟩

/-- Model of `base.paste(src, (px, py), src)`: paste `src` onto `base` at integer
offset `(px, py)`, blending through the source's own alpha channel; pixels
outside the pasted rectangle are unchanged and the result keeps the base
image's dimensions. -/
def Image.paste (base src : Image) (px py : ℤ) : Image :=
  ⟨base.width, base.height, fun i j =>
    if px ≤ (i : ℤ) ∧ (i : ℤ) < px + src.width ∧
        py ≤ (j : ℤ) ∧ (j : ℤ) < py + src.height then
      blendPix (base.pixel i j) (src.pixel ((i : ℤ) - px).toNat ((j : ℤ) - py).toNat)
    else base.pixel i j⟩

/-- The scale factor `min(usable_width / img_width, usable_height / img_height)`
computed at app.py line 156 (and lines 212, 253), in exact rational
arithmetic. -/
def composeScale (canvasW canvasH margin w h : ℕ) : ℚ :=
  min (((canvasW - margin * 2 : ℕ) : ℚ) / w) (((canvasH - margin * 2 : ℕ) : ℚ) / h)

/-- The resized artwork dimensions
`(max(1, int(w * scale)), max(1, int(h * scale)))` of app.py lines 157-158. -/
def composeNewSize (canvasW canvasH margin w h : ℕ) : ℕ × ℕ :=
  let scale := composeScale canvasW canvasH margin w h
  (max 1 (pyInt ((w : ℚ) * scale)).toNat, max 1 (pyInt ((h : ℚ) * scale)).toNat)

/-- The canvas-composition core shared by `process_single_sticker`,
`resize_to_main` and `resize_to_tab` (app.py lines 147-167, 202-223,
243-264): on a zero-dimension input return a fully transparent canvas of
the target size; otherwise scale the artwork to fit the canvas minus the
margin, allocate a transparent canvas, and paste the resized artwork at
the centered floor-division offsets. -/
def composeCanvas (resample : Resample) (canvasW canvasH margin : ℕ)
    (image_nobg : Image) : Image :=
  if image_nobg.width = 0 ∨ image_nobg.height = 0 then
    Image.new canvasW canvasH transparentPix
  else
    let ns := composeNewSize canvasW canvasH margin image_nobg.width image_nobg.height
    let resized := image_nobg.resizeWith ns.1 ns.2 resample
    let canvas := Image.new canvasW canvasH transparentPix
    canvas.paste resized (((canvasW : ℤ) - ns.1).fdiv 2) (((canvasH : ℤ) - ns.2).fdiv 2)

/-- Embedding of `process_single_sticker` (app.py lines 131-167) from the point where the
background step has produced `image_nobg`: the rembg call is an external
oracle, so the argument here is its output (with `apply_rembg=false` it is
the input crop itself, converted to RGBA). -/
def process_single_sticker (resample : Resample) (image_nobg : Image) : Image :=
  composeCanvas resample LINE_STICKER_MAX_WIDTH LINE_STICKER_MAX_HEIGHT
    STICKER_MARGIN image_nobg

/-- Embedding of `resize_to_main` (app.py lines 185-223) from the point where the
background step has produced `image_nobg`; margin 5. -/
def resize_to_main (resample : Resample) (image_nobg : Image) : Image :=
  composeCanvas resample LINE_MAIN_WIDTH LINE_MAIN_HEIGHT 5 image_nobg

/-- Embedding of `resize_to_tab` (app.py lines 226-264) from the point where the
background step has produced `image_nobg`; margin 3. -/
def resize_to_tab (resample : Resample) (image_nobg : Image) : Image :=
  composeCanvas resample LINE_TAB_WIDTH LINE_TAB_HEIGHT 3 image_nobg

/-- The full specification of `grid_split` asserted by claim C1: exactly
`cols * rows` crops; the crop at row-major index `r * cols + c` is the cell
at `(c * cellWidth, r * cellHeight)`; every crop has size
`(width / cols) × (height / rows)`; and every pixel of every crop is read
from a source pixel inside `[0, cols * cellWidth) × [0, rows * cellHeight)`,
so remainder pixels appear in no cell. -/
def GridSplitSpec (image : Image) (cols rows : ℕ) : Prop :=
  let cellWidth := image.width / cols
  let cellHeight := image.height / rows
  let out := grid_split image cols rows
  out.length = cols * rows ∧
  (∀ r, r < rows → ∀ c, c < cols →
    out[r * cols + c]? = some (image.crop (c * cellWidth) (r * cellHeight)
      (c * cellWidth + cellWidth) (r * cellHeight + cellHeight))) ∧
  (∀ im ∈ out, im.width = cellWidth ∧ im.height = cellHeight) ∧
  (∀ im ∈ out, ∀ i j, i < im.width → j < im.height →
    ∃ px py, px < cols * cellWidth ∧ py < rows * cellHeight ∧
      im.pixel i j = image.pixel px py)

/-- Claim C1: for every image of positive dimensions and every
`cols ≥ 1`, `rows ≥ 1`, `grid_split` returns exactly `cols * rows` crops of
size `(W / cols) × (H / rows)` each, in row-major order, and remainder
pixels from a non-evenly-divisible width or height appear in no cell. -/
theorem grid_split_correct (image : Image) (cols rows : ℕ)
    (hW : 0 < image.width) (hH : 0 < image.height)
    (hcols : 1 ≤ cols) (hrows : 1 ≤ rows) :
    GridSplitSpec image cols rows := by
  unfold GridSplitSpec
  refine ⟨?_, ?_, ?_, ?_⟩
  · show (grid_split image cols rows).length = cols * rows
    simp only [grid_split]
    rw [flatMap_range_map_length]
    exact Nat.mul_comm rows cols
  · intro r hr c hc
    show (grid_split image cols rows)[r * cols + c]? = _
    simp only [grid_split]
    exact flatMap_range_map_get _ rows cols r c hr hc
  · intro im him
    unfold grid_split at him
    rw [List.mem_flatMap] at him
    obtain ⟨row, hrow, him⟩ := him
    rw [List.mem_map] at him
    obtain ⟨col, hcol, rfl⟩ := him
    constructor <;> simp [Image.crop]
  · intro im him i j hi hj
    unfold grid_split at him
    rw [List.mem_flatMap] at him
    obtain ⟨row, hrow, him⟩ := him
    rw [List.mem_map] at him
    obtain ⟨col, hcol, rfl⟩ := him
    rw [List.mem_range] at hrow
    rw [List.mem_range] at hcol
    simp only [Image.crop] at hi hj ⊢
    refine ⟨col * (image.width / cols) + i, row * (image.height / rows) + j, ?_, ?_, rfl⟩
    · calc col * (image.width / cols) + i
          < col * (image.width / cols) + image.width / cols := by omega
        _ = (col + 1) * (image.width / cols) := by ring
        _ ≤ cols * (image.width / cols) := Nat.mul_le_mul_right _ (by omega)
    · calc row * (image.height / rows) + j
          < row * (image.height / rows) + image.height / rows := by omega
        _ = (row + 1) * (image.height / rows) := by ring
        _ ≤ rows * (image.height / rows) := Nat.mul_le_mul_right _ (by omega)

/-- Witness for claim C1: the hypotheses and conclusion hold at a concrete
10 × 7 image split into 3 columns and 2 rows. -/
theorem grid_split_correct_witness :
    0 < (Image.new 10 7 transparentPix).width ∧
    0 < (Image.new 10 7 transparentPix).height ∧
    1 ≤ (3:ℕ) ∧ 1 ≤ (2:ℕ) ∧
    GridSplitSpec (Image.new 10 7 transparentPix) 3 2 :=
  ⟨by decide, by decide, by decide, by decide,
   grid_split_correct (Image.new 10 7 transparentPix) 3 2
     (by decide) (by decide) (by decide) (by decide)⟩

/-- Truncation `pyInt` agrees with the floor on non-negative rationals (Python `int()`
truncates toward zero). -/
theorem pyInt_of_nonneg {q : ℚ} (h : 0 ≤ q) : pyInt q = ⌊q⌋ := by
  simp [pyInt, h]

/-- The scale factor of the Canvas Composer is non-negative. -/
theorem composeScale_nonneg (canvasW canvasH margin w h : ℕ) :
    0 ≤ composeScale canvasW canvasH margin w h := by
  unfold composeScale
  apply le_min <;> positivity

/-- One axis of the resized-artwork bound: `max 1 (int(d * scale))` stays
within the usable extent when that extent is at least 1. -/
theorem newDim_le_usable (u d : ℕ) (scale : ℚ) (hu : 1 ≤ u) (hs0 : 0 ≤ scale)
    (hle : (d : ℚ) * scale ≤ (u : ℚ)) :
    max 1 (pyInt ((d : ℚ) * scale)).toNat ≤ u := by
  have h1 : pyInt ((d : ℚ) * scale) = ⌊(d : ℚ) * scale⌋ :=
    pyInt_of_nonneg (mul_nonneg (by positivity) hs0)
  have h2 : ⌊(d : ℚ) * scale⌋ ≤ (u : ℤ) := by
    have h3 := Int.floor_mono hle
    rwa [Int.floor_natCast] at h3
  have h4 : (pyInt ((d : ℚ) * scale)).toNat ≤ u := by
    rw [h1]
    exact Int.toNat_le.mpr h2
  omega

/-- The resized artwork dimensions are at least 1 and at most the usable
extents, whenever the usable extents are at least 1. -/
theorem composeNewSize_bounds (canvasW canvasH margin w h : ℕ)
    (hw : 0 < w) (hh : 0 < h)
    (hu1 : 1 ≤ canvasW - margin * 2) (hu2 : 1 ≤ canvasH - margin * 2) :
    1 ≤ (composeNewSize canvasW canvasH margin w h).1 ∧
    (composeNewSize canvasW canvasH margin w h).1 ≤ canvasW - margin * 2 ∧
    1 ≤ (composeNewSize canvasW canvasH margin w h).2 ∧
    (composeNewSize canvasW canvasH margin w h).2 ≤ canvasH - margin * 2 := by
  have hs0 := composeScale_nonneg canvasW canvasH margin w h
  have hwQ : (0 : ℚ) < (w : ℚ) := by exact_mod_cast hw
  have hhQ : (0 : ℚ) < (h : ℚ) := by exact_mod_cast hh
  have hx : (w : ℚ) * composeScale canvasW canvasH margin w h
      ≤ ((canvasW - margin * 2 : ℕ) : ℚ) := by
    calc (w : ℚ) * composeScale canvasW canvasH margin w h
        ≤ (w : ℚ) * (((canvasW - margin * 2 : ℕ) : ℚ) / (w : ℚ)) :=
          mul_le_mul_of_nonneg_left (min_le_left _ _) (le_of_lt hwQ)
      _ = ((canvasW - margin * 2 : ℕ) : ℚ) := by field_simp
  have hy : (h : ℚ) * composeScale canvasW canvasH margin w h
      ≤ ((canvasH - margin * 2 : ℕ) : ℚ) := by
    calc (h : ℚ) * composeScale canvasW canvasH margin w h
        ≤ (h : ℚ) * (((canvasH - margin * 2 : ℕ) : ℚ) / (h : ℚ)) :=
          mul_le_mul_of_nonneg_left (min_le_right _ _) (le_of_lt hhQ)
      _ = ((canvasH - margin * 2 : ℕ) : ℚ) := by field_simp
  refine ⟨le_max_left _ _, ?_, le_max_left _ _, ?_⟩
  · exact newDim_le_usable _ _ _ hu1 hs0 hx
  · exact newDim_le_usable _ _ _ hu2 hs0 hy

/-- On an input with positive dimensions, `composeCanvas` is the centered
paste of the resized artwork onto a fresh transparent canvas. -/
theorem composeCanvas_pos (resample : Resample) (canvasW canvasH margin : ℕ)
    (img : Image) (hw : 0 < img.width) (hh : 0 < img.height) :
    composeCanvas resample canvasW canvasH margin img =
      (Image.new canvasW canvasH transparentPix).paste
        (img.resizeWith
          (composeNewSize canvasW canvasH margin img.width img.height).1
          (composeNewSize canvasW canvasH margin img.width img.height).2 resample)
        (((canvasW : ℤ) - (composeNewSize canvasW canvasH margin img.width img.height).1).fdiv 2)
        (((canvasH : ℤ) - (composeNewSize canvasW canvasH margin img.width img.height).2).fdiv 2) := by
  unfold composeCanvas
  rw [if_neg (by omega)]

/-- Both branches of `composeCanvas` produce exactly the target canvas
dimensions. -/
theorem composeCanvas_dims (resample : Resample) (canvasW canvasH margin : ℕ)
    (img : Image) :
    (composeCanvas resample canvasW canvasH margin img).width = canvasW ∧
    (composeCanvas resample canvasW canvasH margin img).height = canvasH := by
  unfold composeCanvas
  split <;> simp [Image.paste, Image.new]

/-- The floor-division paste offset splits any integer gap within one. -/
theorem fdiv_two_centered (d : ℤ) : (d.fdiv 2 - (d - d.fdiv 2)).natAbs ≤ 1 := by
  rw [Int.fdiv_eq_ediv _ (by norm_num)]
  omega

/-- Paste offsets used by `composeCanvas` split each gap evenly within one
pixel: the left/top gap is the paste offset itself, the right/bottom gap is
the remaining `canvas - artwork - offset`. -/
def PasteCentered (canvasW canvasH margin w h : ℕ) : Prop :=
  let ns := composeNewSize canvasW canvasH margin w h
  let px := ((canvasW : ℤ) - ns.1).fdiv 2
  let py := ((canvasH : ℤ) - ns.2).fdiv 2
  (px - ((canvasW : ℤ) - ns.1 - px)).natAbs ≤ 1 ∧
  (py - ((canvasH : ℤ) - ns.2 - py)).natAbs ≤ 1

/-- Claim C2: for every input crop of any size and aspect ratio,
`process_single_sticker`, `resize_to_main` and `resize_to_tab` return an
image of exactly 370 × 320, 240 × 240 and 96 × 74 respectively, and for a
crop with positive dimensions the horizontal and vertical gaps between the
resized artwork and the canvas are each split evenly between the two sides,
within one pixel. -/
theorem canvas_composer_exact_dims_centered (resample : Resample) (img : Image) :
    (process_single_sticker resample img).width = 370 ∧
    (process_single_sticker resample img).height = 320 ∧
    (resize_to_main resample img).width = 240 ∧
    (resize_to_main resample img).height = 240 ∧
    (resize_to_tab resample img).width = 96 ∧
    (resize_to_tab resample img).height = 74 ∧
    (0 < img.width → 0 < img.height →
      PasteCentered 370 320 10 img.width img.height ∧
      PasteCentered 240 240 5 img.width img.height ∧
      PasteCentered 96 74 3 img.width img.height) := by
  refine ⟨?_, ?_, ?_, ?_, ?_, ?_, ?_⟩
  · exact (composeCanvas_dims resample 370 320 10 img).1
  · exact (composeCanvas_dims resample 370 320 10 img).2
  · exact (composeCanvas_dims resample 240 240 5 img).1
  · exact (composeCanvas_dims resample 240 240 5 img).2
  · exact (composeCanvas_dims resample 96 74 3 img).1
  · exact (composeCanvas_dims resample 96 74 3 img).2
  · intro _ _
    refine ⟨⟨?_, ?_⟩, ⟨?_, ?_⟩, ⟨?_, ?_⟩⟩ <;> exact fdiv_two_centered _

/-- Witness for claim C2 at a concrete 123 × 45 crop and a concrete
resampling filter. -/
theorem canvas_composer_exact_dims_centered_witness :
    0 < (Image.new 123 45 transparentPix).width ∧
    0 < (Image.new 123 45 transparentPix).height ∧
    (PasteCentered 370 320 10 (Image.new 123 45 transparentPix).width
        (Image.new 123 45 transparentPix).height ∧
      PasteCentered 240 240 5 (Image.new 123 45 transparentPix).width
        (Image.new 123 45 transparentPix).height ∧
      PasteCentered 96 74 3 (Image.new 123 45 transparentPix).width
        (Image.new 123 45 transparentPix).height) :=
  ⟨by decide, by decide,
   (canvas_composer_exact_dims_centered (fun _ _ _ _ _ => transparentPix)
       (Image.new 123 45 transparentPix)).2.2.2.2.2.2 (by decide) (by decide)⟩

/-- Claim C7: a crop with zero width or zero height after background
removal composes to an entirely transparent canvas of exactly the target
size for all three composer functions, instead of raising an error. -/
theorem degenerate_crop_transparent_canvas (resample : Resample) (img : Image)
    (h : img.width = 0 ∨ img.height = 0) :
    process_single_sticker resample img = Image.new 370 320 transparentPix ∧
    resize_to_main resample img = Image.new 240 240 transparentPix ∧
    resize_to_tab resample img = Image.new 96 74 transparentPix ∧
    (∀ i j, (process_single_sticker resample img).pixel i j = transparentPix) ∧
    (∀ i j, (resize_to_main resample img).pixel i j = transparentPix) ∧
    (∀ i j, (resize_to_tab resample img).pixel i j = transparentPix) := by
  have h370 : process_single_sticker resample img = Image.new 370 320 transparentPix := by
    unfold process_single_sticker composeCanvas
    rw [if_pos h]
    rfl
  have h240 : resize_to_main resample img = Image.new 240 240 transparentPix := by
    unfold resize_to_main composeCanvas
    rw [if_pos h]
    rfl
  have h96 : resize_to_tab resample img = Image.new 96 74 transparentPix := by
    unfold resize_to_tab composeCanvas
    rw [if_pos h]
    rfl
  refine ⟨h370, h240, h96, ?_, ?_, ?_⟩ <;> intro i j
  · rw [h370]; rfl
  · rw [h240]; rfl
  · rw [h96]; rfl

/-- Witness for claim C7 at a concrete zero-width crop. -/
theorem degenerate_crop_transparent_canvas_witness :
    ((Image.new 0 55 transparentPix).width = 0 ∨
      (Image.new 0 55 transparentPix).height = 0) ∧
    process_single_sticker (fun _ _ _ _ _ => transparentPix)
        (Image.new 0 55 transparentPix) = Image.new 370 320 transparentPix :=
  ⟨Or.inl rfl,
   (degenerate_crop_transparent_canvas (fun _ _ _ _ _ => transparentPix)
       (Image.new 0 55 transparentPix) (Or.inl rfl)).1⟩

/-- Claim C10: for a crop with positive dimensions, the resized artwork of
`process_single_sticker` has both dimensions at least 1 and at most the
usable area (350 × 300), both paste offsets are at least the margin, and
the pasted artwork lies entirely inside the canvas leaving a border of at
least the 10-pixel margin on every side. -/
theorem process_single_sticker_artwork_inside (resample : Resample) (img : Image)
    (hw : 0 < img.width) (hh : 0 < img.height) :
    let ns := composeNewSize 370 320 10 img.width img.height
    let px := ((370 : ℤ) - ns.1).fdiv 2
    let py := ((320 : ℤ) - ns.2).fdiv 2
    1 ≤ ns.1 ∧ ns.1 ≤ 350 ∧ 1 ≤ ns.2 ∧ ns.2 ≤ 300 ∧
    10 ≤ px ∧ px + ns.1 + 10 ≤ 370 ∧
    10 ≤ py ∧ py + ns.2 + 10 ≤ 320 ∧
    process_single_sticker resample img =
      (Image.new 370 320 transparentPix).paste
        (img.resizeWith ns.1 ns.2 resample) px py := by
  intro ns px py
  have hns : ns = composeNewSize 370 320 10 img.width img.height := rfl
  obtain ⟨h1, h2, h3, h4⟩ :=
    composeNewSize_bounds 370 320 10 img.width img.height hw hh (by norm_num) (by norm_num)
  rw [← hns] at h1 h2 h3 h4
  have hpx : px = ((370 : ℤ) - ns.1) / 2 := Int.fdiv_eq_ediv _ (by norm_num)
  have hpy : py = ((320 : ℤ) - ns.2) / 2 := Int.fdiv_eq_ediv _ (by norm_num)
  refine ⟨h1, by omega, h3, by omega, ?_, ?_, ?_, ?_, ?_⟩
  · rw [hpx]; omega
  · rw [hpx]; omega
  · rw [hpy]; omega
  · rw [hpy]; omega
  · exact composeCanvas_pos resample 370 320 10 img hw hh

/-- Witness for claim C10 at a concrete 1000 × 3 crop (extreme aspect
ratio, exercising the `max 1` guard on the scaled height). -/
theorem process_single_sticker_artwork_inside_witness :
    0 < (Image.new 1000 3 transparentPix).width ∧
    0 < (Image.new 1000 3 transparentPix).height ∧
    (let ns := composeNewSize 370 320 10 (Image.new 1000 3 transparentPix).width
        (Image.new 1000 3 transparentPix).height
     let px := ((370 : ℤ) - ns.1).fdiv 2
     let py := ((320 : ℤ) - ns.2).fdiv 2
     1 ≤ ns.1 ∧ ns.1 ≤ 350 ∧ 1 ≤ ns.2 ∧ ns.2 ≤ 300 ∧
     10 ≤ px ∧ px + ns.1 + 10 ≤ 370 ∧
     10 ≤ py ∧ py + ns.2 + 10 ≤ 320 ∧
     process_single_sticker (fun _ _ _ _ _ => transparentPix)
         (Image.new 1000 3 transparentPix) =
       (Image.new 370 320 transparentPix).paste
         ((Image.new 1000 3 transparentPix).resizeWith ns.1 ns.2
           (fun _ _ _ _ _ => transparentPix)) px py) :=
  ⟨by decide, by decide,
   process_single_sticker_artwork_inside (fun _ _ _ _ _ => transparentPix)
     (Image.new 1000 3 transparentPix) (by decide) (by decide)⟩

/-- The scale the Canvas Composer computes for a full-size 370 × 320 cell:
`min(350/370, 300/320) = 15/16`. -/
theorem composeScale_full_cell : composeScale 370 320 10 370 320 = 15 / 16 := by
  unfold composeScale
  rw [min_eq_right (by norm_num)]
  norm_num

/-- The artwork size the Canvas Composer computes for a full-size
370 × 320 cell: `(int(370 * 15/16), int(320 * 15/16)) = (346, 300)`. -/
theorem composeNewSize_full_cell : composeNewSize 370 320 10 370 320 = (346, 300) := by
  unfold composeNewSize
  rw [composeScale_full_cell]
  have hfw : pyInt (((370 : ℕ) : ℚ) * (15 / 16)) = 346 := by
    rw [pyInt_of_nonneg (by norm_num), Int.floor_eq_iff]
    norm_num
  have hfh : pyInt (((320 : ℕ) : ℚ) * (15 / 16)) = 300 := by
    rw [pyInt_of_nonneg (by norm_num), Int.floor_eq_iff]
    norm_num
  simp only [hfw, hfh]
  decide

/-- Counterexample to claim C4 as stated: on the scenario's own 370 × 320
grid cell the Canvas Composer computes scale 15/16, not 1 (the margins
shrink the usable area to 350 × 300), and resizes the artwork to
346 × 300. -/
theorem grid_scenario_scale_not_one :
    composeScale 370 320 10 370 320 = 15 / 16 ∧
    composeScale 370 320 10 370 320 ≠ 1 ∧
    composeNewSize 370 320 10 370 320 = (346, 300) ∧
    (346 : ℕ) ≠ 370 :=
  ⟨composeScale_full_cell, by rw [composeScale_full_cell]; norm_num,
   composeNewSize_full_cell, by norm_num⟩

/-- The amended end-to-end grid scenario of claim C4: a 1480 × 2240 sheet
split 4 × 7 yields 28 crops of exactly 370 × 320 each; on each such crop
`process_single_sticker` computes scale 15/16 (not 1), resizing the
artwork to 346 × 300 and pasting it centered at offsets (12, 10) on the
370 × 320 canvas. -/
def GridScenarioSpec (resample : Resample) (img : Image) : Prop :=
  (grid_split img 4 7).length = 28 ∧
  (∀ cell ∈ grid_split img 4 7, cell.width = 370 ∧ cell.height = 320) ∧
  composeScale 370 320 10 370 320 = 15 / 16 ∧
  composeNewSize 370 320 10 370 320 = (346, 300) ∧
  (∀ cell ∈ grid_split img 4 7,
    process_single_sticker resample cell =
      (Image.new 370 320 transparentPix).paste
        (cell.resizeWith 346 300 resample) 12 10)

/-- Claim C4 (amended): the grid half of the scenario holds as stated, but
on each 370 × 320 cell the composer's scale is 15/16 rather than 1, so the
output is the cell's artwork resized to 346 × 300 and centered at
(12, 10), not a pixel-identical copy. -/
theorem end_to_end_grid_scenario (resample : Resample) (img : Image)
    (hW : img.width = 1480) (hH : img.height = 2240) :
    GridScenarioSpec resample img := by
  have hcw : img.width / 4 = 370 := by rw [hW]
  have hch : img.height / 7 = 320 := by rw [hH]
  have hcell : ∀ cell ∈ grid_split img 4 7, cell.width = 370 ∧ cell.height = 320 := by
    intro cell hm
    unfold grid_split at hm
    rw [List.mem_flatMap] at hm
    obtain ⟨row, hrow, hm⟩ := hm
    rw [List.mem_map] at hm
    obtain ⟨col, hcol, rfl⟩ := hm
    constructor <;> simp [Image.crop, hcw, hch]
  refine ⟨?_, hcell, composeScale_full_cell, composeNewSize_full_cell, ?_⟩
  · show (grid_split img 4 7).length = 28
    unfold grid_split
    rw [flatMap_range_map_length]
  · intro cell hm
    obtain ⟨hw370, hh320⟩ := hcell cell hm
    have hpos := composeCanvas_pos resample 370 320 10 cell (by omega) (by omega)
    rw [hw370, hh320, composeNewSize_full_cell] at hpos
    show composeCanvas resample 370 320 10 cell = _
    rw [hpos]
    rfl

/-- Witness for the amended claim C4 at a concrete 1480 × 2240 sheet. -/
theorem end_to_end_grid_scenario_witness :
    (Image.new 1480 2240 transparentPix).width = 1480 ∧
    (Image.new 1480 2240 transparentPix).height = 2240 ∧
    GridScenarioSpec (fun _ _ _ _ _ => transparentPix)
      (Image.new 1480 2240 transparentPix) :=
  ⟨rfl, rfl, end_to_end_grid_scenario _ _ rfl rfl⟩

/-- A bounding box `(x, y, w, h)` as returned by `cv2.boundingRect`. -/
structure Box where
  x : ℕ
  y : ℕ
  w : ℕ
  h : ℕ
deriving DecidableEq

/-- A raw detected contour: its enclosed area as computed by
`cv2.contourArea` (a float, modelled as an exact rational) together with
its bounding box. The cv2 blur / threshold / dilation / contour-tracing
steps of `find_sticker_contours` (app.py lines 87-95) are an external
imaging oracle; the list of contours it produces is the input of the
modelled filtering and sorting phase. -/
structure RawContour where
  area : ℚ
  x : ℕ
  y : ℕ
  w : ℕ
  h : ℕ
deriving DecidableEq

/-- The area / aspect-ratio filter of `find_sticker_contours` (app.py
lines 97-104): keep a contour's bounding box when `area >= min_area` and
the aspect ratio `max(w, h) / min(w, h)` (999 when a side is 0) is
strictly below 10. -/
def filterStickerBoxes (minArea : ℤ) (contours : List RawContour) : List Box :=
  contours.filterMap fun c =>
    if (minArea : ℚ) ≤ c.area then
      if (if 0 < min c.w c.h
          then ((max c.w c.h : ℕ) : ℚ) / ((min c.w c.h : ℕ) : ℚ)
          else 999) < 10 then
        some ⟨c.x, c.y, c.w, c.h⟩
      else none
    else none

/-- Value `avg_height * 0.5` of app.py lines 107-108, in exact rationals. -/
def rowThresholdQ (boxes : List Box) : ℚ :=
  (((boxes.map Box.h).sum : ℕ) : ℚ) / (boxes.length : ℚ) * (1 / 2)

/-- The row band `int(row_threshold)`: the divisor of the sort key at
app.py line 109. -/
def rowBand (boxes : List Box) : ℕ :=
  (pyInt (rowThresholdQ boxes)).toNat

/-- Boolean order on the banded sort key `(y // d, x)` of app.py line 109. -/
def bandKeyLe (d : ℕ) (a b : Box) : Bool :=
  a.y / d < b.y / d || (a.y / d == b.y / d && a.x ≤ b.x)

/-- Boolean order on the fallback sort key `(y, x)` (the
`row_threshold <= 0` branch of app.py line 109). -/
def rawKeyLe (a b : Box) : Bool :=
  a.y < b.y || (a.y == b.y && a.x ≤ b.x)

/-- The in-place reading-order sort of app.py lines 106-109:
`bounding_boxes.sort(key=...)` is a stable ascending sort by the key
`(y // int(row_threshold) if row_threshold > 0 else y, x)`. Python `//`
raises `ZeroDivisionError` when `int(row_threshold) == 0` yet
`row_threshold > 0`, modelled as `Except.error`. -/
def sortStickerBoxes (boxes : List Box) : Except Unit (List Box) :=
  if boxes.isEmpty then .ok boxes
  else if 0 < rowThresholdQ boxes then
    if rowBand boxes = 0 then .error ()
    else .ok (boxes.mergeSort (bandKeyLe (rowBand boxes)))
  else .ok (boxes.mergeSort rawKeyLe)

/-- Embedding of `find_sticker_contours` (app.py lines 76-111) downstream of the cv2
imaging oracle: compute `min_area = int(total_area * min_area_percent / 100)`,
filter the oracle's contours by area and aspect ratio, and sort the
surviving boxes in reading order. -/
def find_sticker_contours (imgWidth imgHeight : ℕ) (minAreaPercent : ℚ)
    (contours : List RawContour) : Except Unit (List Box) :=
  let totalArea := imgHeight * imgWidth
  let minArea := pyInt ((totalArea : ℕ) * minAreaPercent / 100)
  sortStickerBoxes (filterStickerBoxes minArea contours)

/-- A successful reading-order sort returns a permutation of its input. -/
theorem sortStickerBoxes_ok_perm (boxes out : List Box)
    (h : sortStickerBoxes boxes = .ok out) : out.Perm boxes := by
  unfold sortStickerBoxes at h
  split_ifs at h with h1 h2 h3
  all_goals first
    | (cases h; exact List.Perm.refl _)
    | (cases h; exact List.mergeSort_perm boxes _)

/-- The banded sort key order, as a proposition. -/
theorem bandKeyLe_eq_true_iff (d : ℕ) (a b : Box) :
    bandKeyLe d a b = true ↔
      (a.y / d < b.y / d ∨ (a.y / d = b.y / d ∧ a.x ≤ b.x)) := by
  simp [bandKeyLe]

/-- A positive row band forces a positive row threshold. -/
theorem rowThresholdQ_pos_of_rowBand_pos (boxes : List Box)
    (hband : 0 < rowBand boxes) : 0 < rowThresholdQ boxes := by
  by_contra hq
  push_neg at hq
  have hle : pyInt (rowThresholdQ boxes) ≤ 0 := by
    unfold pyInt
    split_ifs with h0
    · have hz : rowThresholdQ boxes = 0 := le_antisymm hq h0
      rw [hz]
      simp
    · have h1 : (0 : ℚ) ≤ -rowThresholdQ boxes := by linarith
      have h2 : (0 : ℤ) ≤ ⌊-rowThresholdQ boxes⌋ := Int.floor_nonneg.mpr h1
      omega
  unfold rowBand at hband
  omega

/-- Claim C5: whenever the reading-order sort runs with a positive row
band and succeeds, the returned list is a permutation of the input in
which a box with a smaller band index `y / row_band` precedes every box
with a larger one, and within equal band indices a box with smaller `x`
comes first. -/
theorem reading_order_sorted (boxes out : List Box)
    (hband : 0 < rowBand boxes)
    (h : sortStickerBoxes boxes = .ok out) :
    out.Perm boxes ∧
    out.Pairwise (fun a b =>
      a.y / rowBand boxes < b.y / rowBand boxes ∨
      (a.y / rowBand boxes = b.y / rowBand boxes ∧ a.x ≤ b.x)) := by
  have hperm := sortStickerBoxes_ok_perm boxes out h
  have hthr := rowThresholdQ_pos_of_rowBand_pos boxes hband
  refine ⟨hperm, ?_⟩
  by_cases hempty : boxes.isEmpty
  · unfold sortStickerBoxes at h
    rw [if_pos hempty] at h
    injection h with h2
    rw [← h2, List.isEmpty_iff.mp hempty]
    exact List.Pairwise.nil
  · unfold sortStickerBoxes at h
    rw [if_neg hempty, if_pos hthr, if_neg (by omega)] at h
    injection h with h2
    rw [← h2]
    have htrans : ∀ a b c : Box,
        bandKeyLe (rowBand boxes) a b = true → bandKeyLe (rowBand boxes) b c = true →
        bandKeyLe (rowBand boxes) a c = true := by
      intro a b c hab hbc
      rw [bandKeyLe_eq_true_iff] at hab hbc ⊢
      omega
    have htotal : ∀ a b : Box,
        (bandKeyLe (rowBand boxes) a b || bandKeyLe (rowBand boxes) b a) = true := by
      intro a b
      rw [Bool.or_eq_true, bandKeyLe_eq_true_iff, bandKeyLe_eq_true_iff]
      omega
    have hs := List.sorted_mergeSort htrans htotal boxes
    exact hs.imp fun hab => (bandKeyLe_eq_true_iff _ _ _).mp hab

/-- Concrete sort data: two boxes of height 4 give row threshold 2. -/
theorem sortWitness_threshold :
    rowThresholdQ [⟨10, 0, 5, 4⟩, ⟨0, 1, 5, 4⟩] = 2 := by
  norm_num [rowThresholdQ]

/-- Concrete sort data: the row band is `int(2) = 2`. -/
theorem sortWitness_band : rowBand [⟨10, 0, 5, 4⟩, ⟨0, 1, 5, 4⟩] = 2 := by
  unfold rowBand
  rw [sortWitness_threshold, pyInt_of_nonneg (by norm_num)]
  have hf : ⌊(2 : ℚ)⌋ = 2 := by
    rw [Int.floor_eq_iff]
    norm_num
  rw [hf]
  rfl

/-- Concrete sort data: both boxes fall in band 0, so the sort orders
them by `x`. -/
theorem sortWitness_eval : sortStickerBoxes [⟨10, 0, 5, 4⟩, ⟨0, 1, 5, 4⟩]
    = .ok [⟨0, 1, 5, 4⟩, ⟨10, 0, 5, 4⟩] := by
  unfold sortStickerBoxes
  rw [if_neg (by decide), if_pos (by rw [sortWitness_threshold]; norm_num),
    if_neg (by rw [sortWitness_band]; decide), sortWitness_band]
  simp [List.mergeSort, bandKeyLe]

/-- Witness for claim C5: a concrete two-box sort with band 2 where both
boxes share band 0 and the one with smaller `x` comes first. -/
theorem reading_order_sorted_witness :
    0 < rowBand [⟨10, 0, 5, 4⟩, ⟨0, 1, 5, 4⟩] ∧
    sortStickerBoxes [⟨10, 0, 5, 4⟩, ⟨0, 1, 5, 4⟩]
      = .ok [⟨0, 1, 5, 4⟩, ⟨10, 0, 5, 4⟩] ∧
    (([⟨0, 1, 5, 4⟩, ⟨10, 0, 5, 4⟩] : List Box).Perm
        [⟨10, 0, 5, 4⟩, ⟨0, 1, 5, 4⟩] ∧
      ([⟨0, 1, 5, 4⟩, ⟨10, 0, 5, 4⟩] : List Box).Pairwise (fun a b =>
        a.y / rowBand [⟨10, 0, 5, 4⟩, ⟨0, 1, 5, 4⟩]
            < b.y / rowBand [⟨10, 0, 5, 4⟩, ⟨0, 1, 5, 4⟩] ∨
        (a.y / rowBand [⟨10, 0, 5, 4⟩, ⟨0, 1, 5, 4⟩]
            = b.y / rowBand [⟨10, 0, 5, 4⟩, ⟨0, 1, 5, 4⟩] ∧ a.x ≤ b.x))) :=
  ⟨by rw [sortWitness_band]; decide, sortWitness_eval,
   reading_order_sorted _ _ (by rw [sortWitness_band]; decide) sortWitness_eval⟩

/-- On the failing C3 input the computed `min_area` is `int(0.5) = 0`. -/
theorem zeroDivWitness_minArea :
    pyInt (((1 * 100 : ℕ) : ℚ) * (1 / 2) / 100) = 0 := by
  rw [pyInt_of_nonneg (by norm_num)]
  have h1 : (((1 * 100 : ℕ) : ℚ) * (1 / 2) / 100) = 1 / 2 := by norm_num
  rw [h1]
  rw [Int.floor_eq_iff]
  norm_num

/-- On the failing C3 input the box `(45, 0, 9, 1)` survives the filter:
its contour area 0.0 meets `min_area = 0` and its aspect ratio 9 is below
10. -/
theorem zeroDivWitness_filter :
    filterStickerBoxes 0 [⟨0, 45, 0, 9, 1⟩] = [⟨45, 0, 9, 1⟩] := by
  unfold filterStickerBoxes
  rw [List.filterMap_cons]
  rw [if_pos (by norm_num), if_pos (by norm_num)]
  simp

/-- Claim C3 is contradicted by the code: `row_band` is not guarded to a
minimum of 1. The guard at app.py line 109 tests the float
`row_threshold > 0`, not its truncation `int(row_threshold)`, so whenever
`0 < avg_height * 0.5 < 1` the sort key computes `box[1] // 0` and raises
`ZeroDivisionError`. Concretely: a 100 × 1 image whose contour oracle
yields one contour of area 0.0 with bounding box `(45, 0, 9, 1)` gives
`min_area = int(0.5) = 0`, the box passes both filters, the average height
is 1, the threshold is 0.5 > 0, and the divisor `int(0.5)` is 0. -/
theorem row_band_zero_division :
    find_sticker_contours 100 1 (1 / 2) [⟨0, 45, 0, 9, 1⟩] = .error () ∧
    0 < rowThresholdQ [⟨45, 0, 9, 1⟩] ∧
    rowBand [⟨45, 0, 9, 1⟩] = 0 := by
  have hthr : rowThresholdQ [⟨45, 0, 9, 1⟩] = 1 / 2 := by
    norm_num [rowThresholdQ]
  have hband : rowBand [⟨45, 0, 9, 1⟩] = 0 := by
    unfold rowBand
    rw [hthr, pyInt_of_nonneg (by norm_num)]
    have hf : ⌊(1 / 2 : ℚ)⌋ = 0 := by
      rw [Int.floor_eq_iff]
      norm_num
    rw [hf]
    rfl
  refine ⟨?_, by rw [hthr]; norm_num, hband⟩
  show sortStickerBoxes (filterStickerBoxes
    (pyInt (((1 * 100 : ℕ) : ℚ) * (1 / 2) / 100)) [⟨0, 45, 0, 9, 1⟩]) = .error ()
  rw [zeroDivWitness_minArea, zeroDivWitness_filter]
  unfold sortStickerBoxes
  rw [if_neg (by decide), if_pos (by rw [hthr]; norm_num), if_pos hband]

/-- Claim C6: every box in the RegionSet returned by
`find_sticker_contours` originates from a contour whose enclosed area is
at least `min_area = int(total_area * min_area_percent / 100)`, and its
longer side never exceeds 10 times its shorter side:
`max(w, h) ≤ 10 * min(w, h)`. -/
theorem contour_filter_area_aspect (imgWidth imgHeight : ℕ) (minAreaPercent : ℚ)
    (contours : List RawContour) (out : List Box) (b : Box)
    (h : find_sticker_contours imgWidth imgHeight minAreaPercent contours = .ok out)
    (hb : b ∈ out) :
    ∃ c ∈ contours, b = ⟨c.x, c.y, c.w, c.h⟩ ∧
      ((pyInt (((imgHeight * imgWidth : ℕ) : ℚ) * minAreaPercent / 100) : ℤ) : ℚ)
        ≤ c.area ∧
      max b.w b.h ≤ 10 * min b.w b.h := by
  have hperm := sortStickerBoxes_ok_perm _ _ h
  have hbf : b ∈ filterStickerBoxes
      (pyInt (((imgHeight * imgWidth : ℕ) : ℚ) * minAreaPercent / 100)) contours :=
    hperm.mem_iff.mp hb
  unfold filterStickerBoxes at hbf
  rw [List.mem_filterMap] at hbf
  obtain ⟨c, hc, hfc⟩ := hbf
  split_ifs at hfc with h1 h2 h3 h4
  · injection hfc with hfc
    refine ⟨c, hc, hfc.symm, h1, ?_⟩
    rw [← hfc]
    show max c.w c.h ≤ 10 * min c.w c.h
    have hminQ : (0 : ℚ) < ((min c.w c.h : ℕ) : ℚ) := by exact_mod_cast h2
    rw [div_lt_iff₀ hminQ] at h3
    have hlt : (max c.w c.h : ℕ) < 10 * min c.w c.h := by exact_mod_cast h3
    omega
  · exact absurd h4 (by norm_num)

/-- Concrete C6 data: `min_area = int(1000000 * 0.5 / 100) = 5000`. -/
theorem contourWitness_minArea :
    pyInt (((1000 * 1000 : ℕ) : ℚ) * (1 / 2) / 100) = 5000 := by
  rw [pyInt_of_nonneg (by norm_num)]
  have h1 : (((1000 * 1000 : ℕ) : ℚ) * (1 / 2) / 100) = 5000 := by norm_num
  rw [h1]
  rw [Int.floor_eq_iff]
  norm_num

/-- Concrete C6 data: an 80 × 80 contour of area 6000 survives the filter. -/
theorem contourWitness_filter :
    filterStickerBoxes 5000 [⟨6000, 10, 10, 80, 80⟩] = [⟨10, 10, 80, 80⟩] := by
  unfold filterStickerBoxes
  rw [List.filterMap_cons]
  rw [if_pos (by norm_num), if_pos (by norm_num)]
  simp

/-- Concrete C6 data: the single box has threshold 40. -/
theorem contourWitness_thr : rowThresholdQ [⟨10, 10, 80, 80⟩] = 40 := by
  norm_num [rowThresholdQ]

/-- Concrete C6 data: the row band is 40. -/
theorem contourWitness_band : rowBand [⟨10, 10, 80, 80⟩] = 40 := by
  unfold rowBand
  rw [contourWitness_thr, pyInt_of_nonneg (by norm_num)]
  have hf : ⌊(40 : ℚ)⌋ = 40 := by
    rw [Int.floor_eq_iff]
    norm_num
  rw [hf]
  rfl

/-- Concrete C6 data: sorting the single surviving box succeeds. -/
theorem contourWitness_sort :
    sortStickerBoxes [⟨10, 10, 80, 80⟩] = .ok [⟨10, 10, 80, 80⟩] := by
  unfold sortStickerBoxes
  rw [if_neg (by decide), if_pos (by rw [contourWitness_thr]; norm_num),
    if_neg (by rw [contourWitness_band]; decide), contourWitness_band]
  simp [List.mergeSort]

/-- Concrete C6 data: the full post-oracle run of `find_sticker_contours`. -/
theorem contourWitness_run :
    find_sticker_contours 1000 1000 (1 / 2) [⟨6000, 10, 10, 80, 80⟩]
      = .ok [⟨10, 10, 80, 80⟩] := by
  show sortStickerBoxes (filterStickerBoxes
    (pyInt (((1000 * 1000 : ℕ) : ℚ) * (1 / 2) / 100)) [⟨6000, 10, 10, 80, 80⟩]) = _
  rw [contourWitness_minArea, contourWitness_filter, contourWitness_sort]

/-- Witness for claim C6: on a 1000 × 1000 image with one 80 × 80 contour
of area 6000 and `min_area_percent = 0.5`, the returned box passes both
the area and the aspect bound. -/
theorem contour_filter_area_aspect_witness :
    find_sticker_contours 1000 1000 (1 / 2) [⟨6000, 10, 10, 80, 80⟩]
      = .ok [⟨10, 10, 80, 80⟩] ∧
    (⟨10, 10, 80, 80⟩ : Box) ∈ ([⟨10, 10, 80, 80⟩] : List Box) ∧
    ∃ c ∈ ([⟨6000, 10, 10, 80, 80⟩] : List RawContour),
      (⟨10, 10, 80, 80⟩ : Box) = ⟨c.x, c.y, c.w, c.h⟩ ∧
      ((pyInt (((1000 * 1000 : ℕ) : ℚ) * (1 / 2) / 100) : ℤ) : ℚ) ≤ c.area ∧
      max (⟨10, 10, 80, 80⟩ : Box).w (⟨10, 10, 80, 80⟩ : Box).h
        ≤ 10 * min (⟨10, 10, 80, 80⟩ : Box).w (⟨10, 10, 80, 80⟩ : Box).h :=
  ⟨contourWitness_run, by decide,
   contour_filter_area_aspect 1000 1000 (1 / 2) [⟨6000, 10, 10, 80, 80⟩]
     [⟨10, 10, 80, 80⟩] ⟨10, 10, 80, 80⟩ contourWitness_run (by decide)⟩

/-- The clamped crop rectangle of `crop_stickers_by_boxes` (app.py lines
122-125): expand the box by `padding` on all sides and clamp to the image
bounds, as `(max(0, x - p), max(0, y - p), min(W, x + w + p), min(H, y + h + p))`. -/
def cropRect (imageW imageH padding : ℕ) (b : Box) : ℤ × ℤ × ℤ × ℤ :=
  (max 0 ((b.x : ℤ) - padding), max 0 ((b.y : ℤ) - padding),
   min (imageW : ℤ) ((b.x : ℤ) + b.w + padding),
   min (imageH : ℤ) ((b.y : ℤ) + b.h + padding))

/-- Embedding of `crop_stickers_by_boxes` (app.py lines 114-128): crop each padded,
clamped box rectangle out of the original image. -/
def crop_stickers_by_boxes (original : Image) (boxes : List Box)
    (padding : ℕ) : List Image :=
  boxes.map fun b =>
    let r := cropRect original.width original.height padding b
    original.crop r.1.toNat r.2.1.toNat r.2.2.1.toNat r.2.2.2.toNat

/-- Claim C8: for every bounding box lying inside the image and every
padding, the Region Cropper's clamped rectangle satisfies
`0 ≤ x1 ≤ x2 ≤ width` and `0 ≤ y1 ≤ y2 ≤ height`, so
`crop_stickers_by_boxes` crops entirely inside the original image and
never fails on boxes that touch or, once padded, extend past the edge. -/
theorem crop_rect_in_bounds (original : Image) (boxes : List Box) (padding : ℕ)
    (b : Box) (hb : b ∈ boxes)
    (hx : b.x + b.w ≤ original.width) (hy : b.y + b.h ≤ original.height) :
    let r := cropRect original.width original.height padding b
    (0 ≤ r.1 ∧ r.1 ≤ r.2.2.1 ∧ r.2.2.1 ≤ (original.width : ℤ) ∧
     0 ≤ r.2.1 ∧ r.2.1 ≤ r.2.2.2 ∧ r.2.2.2 ≤ (original.height : ℤ)) ∧
    original.crop r.1.toNat r.2.1.toNat r.2.2.1.toNat r.2.2.2.toNat
      ∈ crop_stickers_by_boxes original boxes padding := by
  intro r
  constructor
  · have hr : r = cropRect original.width original.height padding b := rfl
    rw [hr]
    unfold cropRect
    refine ⟨?_, ?_, ?_, ?_, ?_, ?_⟩ <;> simp <;> omega
  · exact List.mem_map.mpr ⟨b, hb, rfl⟩

/-- Witness for claim C8: a 100 × 80 image with the box `(0, 70, 10, 10)`
touching the left and bottom edges, padded by 10 on every side. -/
theorem crop_rect_in_bounds_witness :
    (⟨0, 70, 10, 10⟩ : Box) ∈ ([⟨0, 70, 10, 10⟩] : List Box) ∧
    (⟨0, 70, 10, 10⟩ : Box).x + (⟨0, 70, 10, 10⟩ : Box).w
      ≤ (Image.new 100 80 transparentPix).width ∧
    (⟨0, 70, 10, 10⟩ : Box).y + (⟨0, 70, 10, 10⟩ : Box).h
      ≤ (Image.new 100 80 transparentPix).height ∧
    (let r := cropRect (Image.new 100 80 transparentPix).width
        (Image.new 100 80 transparentPix).height 10 ⟨0, 70, 10, 10⟩
     (0 ≤ r.1 ∧ r.1 ≤ r.2.2.1 ∧
      r.2.2.1 ≤ ((Image.new 100 80 transparentPix).width : ℤ) ∧
      0 ≤ r.2.1 ∧ r.2.1 ≤ r.2.2.2 ∧
      r.2.2.2 ≤ ((Image.new 100 80 transparentPix).height : ℤ)) ∧
     (Image.new 100 80 transparentPix).crop r.1.toNat r.2.1.toNat
        r.2.2.1.toNat r.2.2.2.toNat
       ∈ crop_stickers_by_boxes (Image.new 100 80 transparentPix)
          [⟨0, 70, 10, 10⟩] 10) :=
  ⟨by decide, by decide, by decide,
   crop_rect_in_bounds (Image.new 100 80 transparentPix) [⟨0, 70, 10, 10⟩] 10
     ⟨0, 70, 10, 10⟩ (by decide) (by decide) (by decide)⟩

/-- Modelled from the spec: the Box Merger of spec section 4.4 exists only
in the repository's box-merge variant, which is not among the provided
sources, so the overlap test is reconstructed from the specification text:
a box expanded by `merge_margin` in all four directions overlaps another
box exactly when `a.x - margin < b.x + b.w`, `b.x < a.x + a.w + margin`,
and likewise vertically (written addition-only to stay in ℕ; the test is
symmetric in the two boxes). -/
def expandedOverlap (margin : ℕ) (a b : Box) : Bool :=
  a.x < b.x + b.w + margin && b.x < a.x + a.w + margin &&
  a.y < b.y + b.h + margin && b.y < a.y + a.h + margin

/-- Modelled from the spec: the union of two boxes — min of mins, max of
maxes (spec section 4.4). -/
def unionBox (a b : Box) : Box :=
  ⟨min a.x b.x, min a.y b.y,
   max (a.x + a.w) (b.x + b.w) - min a.x b.x,
   max (a.y + a.h) (b.y + b.h) - min a.y b.y⟩

/-- Modelled from the spec: scan for the first box of the list whose
expanded extents overlap `a`; return the union with `a` and the other,
unconsumed boxes. -/
def findMerge (margin : ℕ) (a : Box) : List Box → Option (Box × List Box)
  | [] => none
  | b :: rest =>
    if expandedOverlap margin a b then some (unionBox a b, rest)
    else (findMerge margin a rest).map fun p => (p.1, b :: p.2)

/-- Modelled from the spec: one merge of a single overlapping pair —
replace both boxes by their union, keep everything else; `none` exactly
when a full pass over all pairs makes no merges. -/
def mergeStep (margin : ℕ) : List Box → Option (List Box)
  | [] => none
  | a :: rest =>
    match findMerge margin a rest with
    | some (u, rest2) => some (u :: rest2)
    | none => (mergeStep margin rest).map (a :: ·)

/-- Modelled from the spec: iterate merge passes until none applies; the
fuel argument dominates the number of possible merges, since every merge
removes one box. -/
def mergeLoop (margin : ℕ) : ℕ → List Box → List Box
  | 0, boxes => boxes
  | fuel + 1, boxes =>
    match mergeStep margin boxes with
    | none => boxes
    | some boxes2 => mergeLoop margin fuel boxes2

/-- Modelled from the spec: the Box Merger — repeat until a full pass
makes no merges (spec section 4.4). -/
def mergeBoxes (margin : ℕ) (boxes : List Box) : List Box :=
  mergeLoop margin boxes.length boxes

/-- A successful pair-merge shortens the scanned list by one. -/
theorem findMerge_length (margin : ℕ) (a : Box) :
    ∀ (l : List Box) (u : Box) (rest : List Box),
      findMerge margin a l = some (u, rest) → rest.length + 1 = l.length := by
  intro l
  induction l with
  | nil => intro u rest h; cases h
  | cons b tl ih =>
    intro u rest h
    unfold findMerge at h
    split_ifs at h with hov
    · injection h with h
      cases h
      simp
    · cases hfm : findMerge margin a tl with
      | none => rw [hfm] at h; cases h
      | some p =>
        rw [hfm] at h
        simp only [Option.map_some'] at h
        injection h with h
        cases h
        have := ih p.1 p.2 (by rw [hfm])
        simp
        omega

/-- A successful merge step shortens the box list. -/
theorem mergeStep_length (margin : ℕ) :
    ∀ (l l2 : List Box), mergeStep margin l = some l2 → l2.length < l.length := by
  intro l
  induction l with
  | nil => intro l2 h; cases h
  | cons a tl ih =>
    intro l2 h
    unfold mergeStep at h
    cases hfm : findMerge margin a tl with
    | some p =>
      rw [hfm] at h
      injection h with h
      cases h
      have := findMerge_length margin a tl p.1 p.2 (by rw [hfm])
      simp
      omega
    | none =>
      rw [hfm] at h
      cases hms : mergeStep margin tl with
      | none => rw [hms] at h; cases h
      | some tl2 =>
        rw [hms] at h
        simp only [Option.map_some'] at h
        injection h with h
        cases h
        have := ih tl2 hms
        simp
        omega

/-- With fuel at least the list length, the loop reaches a fixed point of
the merge step. -/
theorem mergeLoop_fixpoint (margin : ℕ) :
    ∀ (fuel : ℕ) (l : List Box), l.length ≤ fuel →
      mergeStep margin (mergeLoop margin fuel l) = none := by
  intro fuel
  induction fuel with
  | zero =>
    intro l hl
    have : l = [] := List.eq_nil_of_length_eq_zero (by omega)
    rw [this]
    rfl
  | succ n ih =>
    intro l hl
    unfold mergeLoop
    cases hms : mergeStep margin l with
    | none => exact hms
    | some l2 =>
      have := mergeStep_length margin l l2 hms
      exact ih l2 (by omega)

/-- A merge-step fixed point is left unchanged by the loop. -/
theorem mergeLoop_of_step_none (margin fuel : ℕ) (l : List Box)
    (h : mergeStep margin l = none) : mergeLoop margin fuel l = l := by
  cases fuel with
  | zero => rfl
  | succ n =>
    unfold mergeLoop
    rw [h]

/-- The Box Merger's own output admits no further merge. -/
theorem mergeBoxes_step_none (margin : ℕ) (boxes : List Box) :
    mergeStep margin (mergeBoxes margin boxes) = none :=
  mergeLoop_fixpoint margin boxes.length boxes le_rfl

/-- Claim C9: the Box Merger is idempotent — re-running the merge pass on
its own output changes nothing. -/
theorem mergeBoxes_idempotent (margin : ℕ) (boxes : List Box) :
    mergeBoxes margin (mergeBoxes margin boxes) = mergeBoxes margin boxes :=
  mergeLoop_of_step_none margin (mergeBoxes margin boxes).length
    (mergeBoxes margin boxes) (mergeBoxes_step_none margin boxes)
